import Mathlib

/-!
Verification of the img-compactor repository (crates img-processor and iccli)
against its natural-language specification.

The embedding follows the two source files:
  - img-processor/src/lib.rs : Quality, ImageProcessorError,
    DefaultImageProcessorFactory.process_image, JpegProcessor.shrink_to
  - iccli/src/main.rs : shrink_image, process_image, process_files

File-system effects are made explicit as a small state type (FsEnv), and the
blocking operations performed by one batch item are recorded in an event
trace, so that lock-scope and no-dispatch properties can be stated.  Rust
Path operations (file_name, extension, join) are embedded at the character
level, following the Unix implementation in the Rust standard library.
-/

set_option autoImplicit false

deriving instance DecidableEq for Except

namespace ImgCompactor

/-! ## Paths: embedding of Rust Path.file_name, Path.extension, Path.join -/

/-- Split a character list at every occurrence of the separator `c`.
Mirrors how Rust iterates the byte components of a Unix path. -/
def splitOnChar (c : Char) : List Char → List (List Char)
  | [] => [[]]
  | x :: xs =>
    if x = c then [] :: splitOnChar c xs
    else
      match splitOnChar c xs with
      | [] => [[x]]
      | r :: rs => (x :: r) :: rs

/-- A path component is kept by Rust components() iff it is neither empty
nor the current-directory marker. -/
def isNormalComp (comp : List Char) : Bool :=
  comp ≠ [] && comp ≠ ['.']

/-- Rust Path.file_name on Unix: the last normal component, unless the path
ends in a parent-directory component (or has no normal component at all). -/
def fileNameData (p : List Char) : Option (List Char) :=
  match ((splitOnChar '/' p).filter isNormalComp).getLast? with
  | none => none
  | some comp => if comp = ['.', '.'] then none else some comp

def fileName (p : String) : Option String :=
  (fileNameData p.data).map (fun l => ⟨l⟩)

/-- Split a file name at its last dot: returns the parts before and after
the final occurrence of the dot, or none when the name has no dot.
Mirrors rsplit once on the dot in Rust rsplit_file_at_dot. -/
def lastDotSplit : List Char → Option (List Char × List Char)
  | [] => none
  | c :: cs =>
    match lastDotSplit cs with
    | some (b, a) => some (c :: b, a)
    | none => if c = '.' then some ([], cs) else none

/-- Rust extension of a file name: the part after the last dot, unless the
name is the parent-directory marker, has no dot, or the part before the
last dot is empty (hidden files such as ".jpg" have no extension). -/
def extensionOfNameData (n : List Char) : Option (List Char) :=
  if n = ['.', '.'] then none
  else
    match lastDotSplit n with
    | none => none
    | some (before, after) => if before = [] then none else some after

/-- Rust Path.extension: the extension of the file name, when there is one. -/
def extension (p : String) : Option String :=
  (fileNameData p.data).bind (fun n => (extensionOfNameData n).map (fun l => ⟨l⟩))

/-- Rust Path.join (push) on Unix at the character level: an absolute
argument replaces the path, otherwise it is appended behind a separator
unless one is already present. -/
def joinData (dir name : List Char) : List Char :=
  if name.head? = some '/' then name
  else if dir = [] then name
  else if dir.getLast? = some '/' then dir ++ name
  else dir ++ '/' :: name

def pathJoin (dir name : String) : String :=
  ⟨joinData dir.data name.data⟩

/-! ## img-processor/src/lib.rs -/

/-- Error enum of the img-processor crate.  The io::Error payload of IoError
is not modelled; a DecodingError message is modelled by the static prefix
the source formats it with, dropping the appended cause of the underlying
library error. -/
inductive ImageProcessorError where
  | UnsupportedFormat
  | QualityOutOfRange
  | IoError
  | DecodingError (msg : String)
deriving DecidableEq

/-- pub struct Quality(u8) -/
structure Quality where
  val : Nat
deriving DecidableEq

/-- impl TryFrom<u8> for Quality: values above 100 are rejected, the rest
are wrapped unchanged.  The argument models the u8 raw value. -/
def Quality.tryFrom (value : Nat) : Except ImageProcessorError Quality :=
  if value > 100 then .error .QualityOutOfRange else .ok ⟨value⟩

/-- Color layouts a JPEG decoder can report (image crate ExtendedColorType,
restricted to the variants relevant to JPEG). -/
inductive ColorType where
  | l8
  | la8
  | rgb8
  | rgba8
  | cmyk8
deriving DecidableEq

/-- Modelled from the spec: the byte content of a file, as seen through the
interface of the image crate codec (an external collaborator specified only
at its interface, spec sections 4.3 and 8).  A valid JPEG byte stream
determines a width, a height, a color layout, the quality it was encoded at
and a pixel payload; a truncated JPEG yields a header but fails on the full
read; anything else fails decoding at the header. -/
inductive FileData where
  | jpeg (width height : Nat) (color : ColorType) (quality : Nat) (payload : List Nat)
  | truncatedJpeg (width height : Nat) (color : ColorType)
  | invalid (bytes : List Nat)
deriving DecidableEq

/-- Modelled from the spec: JpegDecoder::new recovers width, height and the
original color layout from the header of a valid or truncated JPEG stream. -/
def decodeHeader : FileData → Option (Nat × Nat × ColorType)
  | .jpeg w h c _ _ => some (w, h, c)
  | .truncatedJpeg w h c => some (w, h, c)
  | .invalid _ => none

/-- Modelled from the spec: decoder.read_image recovers the full pixel
buffer of a valid JPEG stream and fails on a truncated or invalid one. -/
def readImage : FileData → Option (List Nat)
  | .jpeg _ _ _ _ p => some p
  | .truncatedJpeg _ _ _ => none
  | .invalid _ => none

/-- Modelled from the spec: JpegEncoder::new_with_quality followed by
encode produces a valid JPEG stream with exactly the given width, height
and color layout (spec section 4.3 step 4). -/
def jpegEncode (quality w h : Nat) (c : ColorType) (buf : List Nat) : FileData :=
  .jpeg w h c quality buf

/-- Is this byte content a complete valid JPEG stream? -/
def isValidJpeg : FileData → Bool
  | .jpeg _ _ _ _ _ => true
  | _ => false

/-- Explicit file-system state: the stored files, plus the paths on which
File::create fails (missing parent directory, permissions) and the paths on
which the encoder write fails after creation (device errors such as a full
disk, or an encoder rejection). -/
structure FsEnv where
  files : List (String × FileData)
  createFails : List String
  writeFails : List String
deriving DecidableEq

def FsEnv.lookup (fs : FsEnv) (p : String) : Option FileData :=
  (fs.files.find? (fun kv => kv.1 == p)).map Prod.snd

def FsEnv.setFile (fs : FsEnv) (p : String) (d : FileData) : FsEnv :=
  { fs with files := (p, d) :: fs.files.filter (fun kv => kv.1 ≠ p) }

/-- The blocking operations one batch item performs, in order.  fetchAttempt
and tempStage happen in the async part of iccli process_image; the rest
happen inside the spawn_blocking closure. -/
inductive Event where
  | fetchAttempt (url : String)
  | tempStage (path : String)
  | lockAcquire
  | factoryDispatch (path : String)
  | fileOpen (path : String)
  | decodeImage (path : String)
  | outputCreate (path : String)
  | encodeImage (path : String)
  | lockRelease
deriving DecidableEq

/-- struct JpegProcessor: bound to one input path. -/
structure JpegProcessor where
  input_path : String
deriving DecidableEq

/-- The one field of DefaultImageProcessorFactory in the source is empty. -/
structure DefaultImageProcessorFactory where
deriving DecidableEq

/-- DefaultImageProcessorFactory::process_image: dispatch on the extension
of the path; exactly "jpg" and "jpeg" select the JpegProcessor, anything
else (including no extension) is UnsupportedFormat. -/
def DefaultImageProcessorFactory.process_image (image : String) :
    Except ImageProcessorError JpegProcessor :=
  match extension image with
  | some ext =>
    if ext = "jpg" ∨ ext = "jpeg" then .ok ⟨image⟩
    else .error .UnsupportedFormat
  | none => .error .UnsupportedFormat

/-- JpegProcessor::shrink_to, with the file system threaded explicitly and
the blocking steps recorded.  Step order follows the source: File::open the
input, JpegDecoder::new (header), read_image, File::create the output
(which truncates it), then encode into the created file. -/
def JpegProcessor.shrink_to (self : JpegProcessor) (fs : FsEnv)
    (output_path : String) (quality : Quality) :
    Except ImageProcessorError Unit × FsEnv × List Event :=
  match fs.lookup self.input_path with
  | none => (.error .IoError, fs, [.fileOpen self.input_path])
  | some data =>
    match decodeHeader data with
    | none =>
      (.error (.DecodingError "Failed to start decoding JPEG"), fs,
        [.fileOpen self.input_path, .decodeImage self.input_path])
    | some (width, height, color) =>
      match readImage data with
      | none =>
        (.error (.DecodingError "Failed to parse JPEG image"), fs,
          [.fileOpen self.input_path, .decodeImage self.input_path])
      | some buffer =>
        if fs.createFails.contains output_path then
          (.error .IoError, fs,
            [.fileOpen self.input_path, .decodeImage self.input_path,
             .outputCreate output_path])
        else
          let fs1 := fs.setFile output_path (.invalid [])
          if fs.writeFails.contains output_path then
            (.error (.DecodingError "Failed to encode JPEG image"), fs1,
              [.fileOpen self.input_path, .decodeImage self.input_path,
               .outputCreate output_path, .encodeImage output_path])
          else
            (.ok (), fs1.setFile output_path (jpegEncode quality.val width height color buffer),
              [.fileOpen self.input_path, .decodeImage self.input_path,
               .outputCreate output_path, .encodeImage output_path])

/-! ## iccli/src/main.rs -/

/-- Errors of one batch item in main.rs (anyhow values in the source):
the invalid-input-path message of shrink_image, propagated
ImageProcessorError values, the reqwest transport error, the
failed-to-fetch message on a non-success status, and tempfile creation
failure. -/
inductive AppError where
  | invalidInputPath
  | processor (e : ImageProcessorError)
  | transportError (url : String)
  | fetchError (url : String)
  | tempFileError
deriving DecidableEq

/-- The outcome of one HTTP GET: a transport failure, or a response with a
status code and a body. -/
inductive FetchResult where
  | transportError
  | response (status : Nat) (body : FileData)
deriving DecidableEq

/-- The environment one run of the batch executes in: what each GET
returns, the temporary directory, the random part the tempfile Builder
generates for each staged url, and the initial file system. -/
structure RunEnv where
  fetch : String → FetchResult
  tempDir : String
  tempRand : String → String
  fs : FsEnv

/-- Remote classification in process_image: the source string starts with
one of the two literal scheme markers (byte-level starts_with). -/
def isRemote (s : String) : Bool :=
  "http://".data.isPrefixOf s.data || "https://".data.isPrefixOf s.data

/-- reqwest StatusCode::is_success: the 2xx range. -/
def isSuccessStatus (code : Nat) : Bool :=
  200 ≤ code && code < 300

/-- The file name the tempfile Builder produces: prefix "img_compactor_",
the random part, suffix ".jpg". -/
def tempFileName (env : RunEnv) (url : String) : String :=
  "img_compactor_" ++ env.tempRand url ++ ".jpg"

/-- The full path of the staged temporary file. -/
def tempFilePath (env : RunEnv) (url : String) : String :=
  pathJoin env.tempDir (tempFileName env url)

/-- main.rs shrink_image: take the file name of the input path (failing
with the invalid-input-path message when there is none), join it under the
output directory, dispatch through the factory, then run shrink_to. -/
def shrink_image (fs : FsEnv) (input_path output_dir : String) (quality : Quality) :
    Except AppError Unit × FsEnv × List Event :=
  match fileName input_path with
  | none => (.error .invalidInputPath, fs, [])
  | some name =>
    let output_path := pathJoin output_dir name
    match DefaultImageProcessorFactory.process_image input_path with
    | .error e => (.error (.processor e), fs, [.factoryDispatch input_path])
    | .ok proc =>
      let (r, fs1, evs) := proc.shrink_to fs output_path quality
      (match r with
       | .ok u => .ok u
       | .error e => .error (.processor e),
       fs1, .factoryDispatch input_path :: evs)

/-- main.rs process_image: for a remote source, GET the url (propagating a
transport error, and failing with the fetch message on a non-success
status), stage the body to a fresh temporary file, then under the factory
lock run shrink_image on the temporary path; for a local source, run
shrink_image on the path itself under the lock.  The lock acquisition and
release around the spawn_blocking closure are recorded in the trace. -/
def process_image (env : RunEnv) (input_path output_dir : String) (quality : Quality) :
    Except AppError Unit × FsEnv × List Event :=
  if isRemote input_path then
    match env.fetch input_path with
    | .transportError =>
      (.error (.transportError input_path), env.fs, [.fetchAttempt input_path])
    | .response status body =>
      if !isSuccessStatus status then
        (.error (.fetchError input_path), env.fs, [.fetchAttempt input_path])
      else
        let temp_path := tempFilePath env input_path
        if env.fs.createFails.contains temp_path then
          (.error .tempFileError, env.fs, [.fetchAttempt input_path])
        else
          let fs1 := env.fs.setFile temp_path body
          let (r, fs2, evs) := shrink_image fs1 temp_path output_dir quality
          (r, fs2,
            [.fetchAttempt input_path, .tempStage temp_path, .lockAcquire]
              ++ evs ++ [.lockRelease])
  else
    let (r, fs2, evs) := shrink_image env.fs input_path output_dir quality
    (r, fs2, .lockAcquire :: evs ++ [.lockRelease])

/-- The local path a processor will actually read for a source: the staged
temporary file for a remote source, the source itself for a local one. -/
def stagedInputPath (env : RunEnv) (source : String) : String :=
  if isRemote source then tempFilePath env source else source

/-- The per-item outcome of the batch: the task closure in process_files
turns an error of process_image into a logged failure keyed by the source
string, and a unit result into a success. -/
inductive BatchOutcome where
  | success (source : String)
  | failure (source : String) (e : AppError)
deriving DecidableEq

def itemOutcome (env : RunEnv) (output_dir : String) (quality : Quality)
    (input : String) : BatchOutcome :=
  match (process_image env input output_dir quality).1 with
  | .ok _ => .success input
  | .error e => .failure input e

/-- main.rs process_files: one spawned task per input, each catching its
own error, joined by join_all.  Denotationally: the list of per-item
outcomes, one per input. -/
def process_files (env : RunEnv) (input_files : List String)
    (output_dir : String) (quality : Quality) : List BatchOutcome :=
  input_files.map (itemOutcome env output_dir quality)

/-- Did this GET fail in transport or return a non-success status? -/
def fetchFails (env : RunEnv) (url : String) : Bool :=
  match env.fetch url with
  | .transportError => true
  | .response status _ => !isSuccessStatus status

/-- Is this error a fetch failure (transport or non-success status)? -/
def AppError.isFetchFailure : AppError → Bool
  | .transportError _ => true
  | .fetchError _ => true
  | _ => false

/-- Is this event a factory dispatch? -/
def Event.isFactoryDispatch : Event → Bool
  | .factoryDispatch _ => true
  | _ => false

/-- Events of the acquisition phase of an item: the fetch and the staging
of the body to the temporary file. -/
def Event.isAcquisitionEvent : Event → Bool
  | .fetchAttempt _ => true
  | .tempStage _ => true
  | _ => false

/-- Events of the shrink phase of an item: the dispatch and all file and
codec work of shrink_image. -/
def Event.isShrinkEvent : Event → Bool
  | .factoryDispatch _ => true
  | .fileOpen _ => true
  | .decodeImage _ => true
  | .outputCreate _ => true
  | .encodeImage _ => true
  | _ => false

/-- The events strictly between the lock acquisition and the lock release
of a trace. -/
def lockedSection (t : List Event) : List Event :=
  ((t.dropWhile (fun e => e != Event.lockAcquire)).drop 1).takeWhile
    (fun e => e != Event.lockRelease)

/-- Does the trace witness that the lock is held only for the factory
dispatch, as the spec requires? -/
def lockHeldOnlyForDispatch (t : List Event) : Bool :=
  (lockedSection t).all Event.isFactoryDispatch

/-! ## Concrete run environments and file systems used in the theorems -/

/-- A run where the only reachable url serves a small valid JPEG. -/
def envC1 : RunEnv :=
  ⟨fun u => if u = "http://host/photo.jpg"
            then .response 200 (.jpeg 2 2 .rgb8 90 [1, 2, 3])
            else .transportError,
   "/tmp", fun _ => "AbC123", ⟨[], [], []⟩⟩

/-- A file system holding one valid JPEG where the encoder write to the
output path fails after the output file has been created. -/
def fsC2 : FsEnv := ⟨[("in.jpg", .jpeg 1 1 .rgb8 90 [5])], [], ["out.jpg"]⟩

/-- A file system whose only file is not a valid JPEG stream. -/
def fsC2w : FsEnv := ⟨[("bad.jpg", .invalid [0])], [], []⟩

/-- A run where every GET returns status 404. -/
def envC6 : RunEnv :=
  ⟨fun _ => .response 404 (.invalid []), "/tmp", fun _ => "rA9", ⟨[], [], []⟩⟩

/-- A file system holding one valid three-by-two grayscale JPEG. -/
def fsC7 : FsEnv := ⟨[("photo.jpg", .jpeg 3 2 .l8 80 [9, 9, 9, 9, 9, 9])], [], []⟩

/-- A run over a file system holding one local valid JPEG. -/
def envC8 : RunEnv :=
  ⟨fun _ => .transportError, "/tmp", fun _ => "r",
   ⟨[("in.jpg", .jpeg 1 1 .rgb8 90 [5])], [], []⟩⟩

/-- A run where every GET succeeds but serves bytes that are not a JPEG. -/
def envC9 : RunEnv :=
  ⟨fun _ => .response 200 (.invalid [1]), "/tmp", fun _ => "Zq7", ⟨[], [], []⟩⟩

/-- A run with an empty file system, for the invalid-path claims. -/
def envC10 : RunEnv :=
  ⟨fun _ => .transportError, "/base", fun _ => "s", ⟨[], [], []⟩⟩

/-! ## Helper lemmas about the path embedding -/

theorem splitOnChar_ne_nil (c : Char) (l : List Char) : splitOnChar c l ≠ [] := by
  induction l with
  | nil => simp [splitOnChar]
  | cons x xs ih =>
    simp only [splitOnChar]
    split
    · simp
    · cases h : splitOnChar c xs with
      | nil => exact absurd h ih
      | cons r rs => simp

theorem splitOnChar_append (c : Char) (xs ys : List Char) :
    splitOnChar c (xs ++ c :: ys) = splitOnChar c xs ++ splitOnChar c ys := by
  induction xs with
  | nil => simp [splitOnChar]
  | cons x xs ih =>
    by_cases hx : x = c
    · subst hx
      simp [splitOnChar, ih]
    · simp only [List.cons_append, splitOnChar, if_neg hx, List.append_eq]
      cases h : splitOnChar c xs with
      | nil => exact absurd h (splitOnChar_ne_nil c xs)
      | cons r rs => rw [ih, h]; rfl

theorem splitOnChar_of_not_mem (c : Char) (l : List Char) (h : c ∉ l) :
    splitOnChar c l = [l] := by
  induction l with
  | nil => rfl
  | cons x xs ih =>
    have hx : ¬x = c := fun hxc => h (hxc ▸ List.mem_cons_self x xs)
    have hxs : c ∉ xs := fun hm => h (List.mem_cons_of_mem x hm)
    simp only [splitOnChar, if_neg hx, ih hxs]

theorem lastDotSplit_of_not_mem (l : List Char) (h : '.' ∉ l) :
    lastDotSplit l = none := by
  induction l with
  | nil => rfl
  | cons x xs ih =>
    have hx : ¬x = '.' := fun hxc => h (hxc ▸ List.mem_cons_self x xs)
    have hxs : '.' ∉ xs := fun hm => h (List.mem_cons_of_mem x hm)
    simp only [lastDotSplit, ih hxs, if_neg hx]

theorem lastDotSplit_append (xs ys : List Char) (h : '.' ∉ ys) :
    lastDotSplit (xs ++ '.' :: ys) = some (xs, ys) := by
  induction xs with
  | nil => simp [lastDotSplit, lastDotSplit_of_not_mem ys h]
  | cons x xs ih => simp [lastDotSplit, ih]

theorem fileNameData_of_no_slash (n : List Char) (hs : '/' ∉ n)
    (h1 : isNormalComp n = true) (h2 : n ≠ ['.', '.']) :
    fileNameData n = some n := by
  simp [fileNameData, splitOnChar_of_not_mem '/' n hs, List.filter, h1, h2]

theorem fileNameData_append (d n : List Char) (hs : '/' ∉ n)
    (h1 : isNormalComp n = true) (h2 : n ≠ ['.', '.']) :
    fileNameData (d ++ '/' :: n) = some n := by
  simp [fileNameData, splitOnChar_append '/' d n,
    splitOnChar_of_not_mem '/' n hs, List.filter_append, List.filter, h1, h2]

theorem fileNameData_joinData (d n : List Char) (hs : '/' ∉ n)
    (h1 : isNormalComp n = true) (h2 : n ≠ ['.', '.']) :
    fileNameData (joinData d n) = some n := by
  unfold joinData
  split
  case isTrue hh =>
    exact absurd (by cases n with
      | nil => simp at hh
      | cons a t => simp at hh; exact hh ▸ List.mem_cons_self a t) hs
  case isFalse =>
    split
    · exact fileNameData_of_no_slash n hs h1 h2
    · split
      case isTrue hl =>
        rcases List.getLast?_eq_some_iff.mp hl with ⟨d', hd⟩
        rw [hd, List.append_assoc]
        exact fileNameData_append d' n hs h1 h2
      case isFalse => exact fileNameData_append d n hs h1 h2

theorem extensionOfNameData_concat (m : List Char) (hm : m ≠ []) :
    extensionOfNameData (m ++ '.' :: ['j', 'p', 'g']) = some ['j', 'p', 'g'] := by
  unfold extensionOfNameData
  have hne : m ++ '.' :: ['j', 'p', 'g'] ≠ ['.', '.'] := by
    intro h
    have := congrArg List.length h
    simp [List.length_append] at this
  rw [if_neg hne, lastDotSplit_append m ['j', 'p', 'g'] (by decide)]
  simp [hm]

theorem tempFileName_data (env : RunEnv) (url : String) :
    (tempFileName env url).data =
      ("img_compactor_".data ++ (env.tempRand url).data) ++ '.' :: ['j', 'p', 'g'] := by
  simp [tempFileName, String.data_append, List.append_assoc]

theorem tempFileName_no_slash (env : RunEnv) (url : String)
    (hr : '/' ∉ (env.tempRand url).data) : '/' ∉ (tempFileName env url).data := by
  rw [tempFileName_data]
  intro hmem
  rcases List.mem_append.mp hmem with hmem | hmem
  · rcases List.mem_append.mp hmem with hmem | hmem
    · exact absurd hmem (by decide)
    · exact hr hmem
  · exact absurd hmem (by decide)

theorem tempFileName_cons (env : RunEnv) (url : String) :
    ∃ t, (tempFileName env url).data = 'i' :: t := by
  rw [tempFileName_data]
  exact ⟨_, rfl⟩

theorem tempFileName_normal (env : RunEnv) (url : String) :
    isNormalComp (tempFileName env url).data = true ∧
    (tempFileName env url).data ≠ ['.', '.'] := by
  obtain ⟨t, ht⟩ := tempFileName_cons env url
  rw [ht]
  constructor
  · simp [isNormalComp]
  · intro h
    have := List.head_eq_of_cons_eq h
    simp at this

theorem fileNameData_tempFilePath (env : RunEnv) (url : String)
    (hr : '/' ∉ (env.tempRand url).data) :
    fileNameData (tempFilePath env url).data = some (tempFileName env url).data := by
  obtain ⟨h1, h2⟩ := tempFileName_normal env url
  exact fileNameData_joinData _ _ (tempFileName_no_slash env url hr) h1 h2

theorem fileName_tempFilePath (env : RunEnv) (url : String)
    (hr : '/' ∉ (env.tempRand url).data) :
    fileName (tempFilePath env url) = some (tempFileName env url) := by
  unfold fileName
  rw [fileNameData_tempFilePath env url hr]
  rfl

theorem extension_tempFilePath (env : RunEnv) (url : String)
    (hr : '/' ∉ (env.tempRand url).data) :
    extension (tempFilePath env url) = some "jpg" := by
  have hm : "img_compactor_".data ++ (env.tempRand url).data ≠ [] := by
    intro h
    have := congrArg List.length h
    simp [List.length_append] at this
  unfold extension
  rw [fileNameData_tempFilePath env url hr]
  show (extensionOfNameData (tempFileName env url).data).map
    (fun l => (⟨l⟩ : String)) = some "jpg"
  rw [tempFileName_data, extensionOfNameData_concat _ hm]
  rfl

theorem factory_tempFilePath (env : RunEnv) (url : String)
    (hr : '/' ∉ (env.tempRand url).data) :
    DefaultImageProcessorFactory.process_image (tempFilePath env url) =
      .ok ⟨tempFilePath env url⟩ := by
  unfold DefaultImageProcessorFactory.process_image
  rw [extension_tempFilePath env url hr]
  simp

theorem joinData_suffix (d n : List Char) : ∃ l, joinData d n = l ++ n := by
  unfold joinData
  split
  · exact ⟨[], rfl⟩
  · split
    · exact ⟨[], rfl⟩
    · split
      · exact ⟨d, rfl⟩
      · exact ⟨d ++ ['/'], by simp⟩

theorem FsEnv.lookup_setFile_self (fs : FsEnv) (p : String) (d : FileData) :
    (fs.setFile p d).lookup p = some d := by
  simp [FsEnv.lookup, FsEnv.setFile, List.find?]

/-- Full case characterization of shrink_to: a success decodes the input
and writes the re-encoded image over the freshly created output; an error
is never UnsupportedFormat, leaves the file system untouched unless it is
the encode failure, in which case exactly the truncated output remains;
and every recorded event belongs to the shrink phase. -/
theorem shrink_to_spec (self : JpegProcessor) (fs : FsEnv) (out : String) (q : Quality)
    (r : Except ImageProcessorError Unit) (fs2 : FsEnv) (t : List Event)
    (h : self.shrink_to fs out q = (r, fs2, t)) :
    (r = .ok () → ∃ w hh c buf,
       (fs.lookup self.input_path).bind decodeHeader = some (w, hh, c) ∧
       fs2 = (fs.setFile out (.invalid [])).setFile out (jpegEncode q.val w hh c buf)) ∧
    (∀ e, r = .error e →
       e ≠ .UnsupportedFormat ∧
       (e ≠ .DecodingError "Failed to encode JPEG image" → fs2 = fs) ∧
       (e = .DecodingError "Failed to encode JPEG image" →
         fs2 = fs.setFile out (.invalid []))) ∧
    t.all Event.isShrinkEvent = true := by
  unfold JpegProcessor.shrink_to at h
  split at h
  · -- File::open fails: the input path is absent
    simp only [Prod.mk.injEq] at h
    obtain ⟨rfl, rfl, rfl⟩ := h
    refine ⟨fun hok => (by cases hok), fun e he => ?_, rfl⟩
    injection he with he
    subst he
    exact ⟨(by decide), fun _ => rfl, fun hc => absurd hc (by decide)⟩
  · rename_i data hl
    split at h
    · -- JpegDecoder::new fails: the header does not decode
      simp only [Prod.mk.injEq] at h
      obtain ⟨rfl, rfl, rfl⟩ := h
      refine ⟨fun hok => (by cases hok), fun e he => ?_, rfl⟩
      injection he with he
      subst he
      exact ⟨(by decide), fun _ => rfl, fun hc => absurd hc (by decide)⟩
    · rename_i width height color hd
      split at h
      · -- read_image fails
        simp only [Prod.mk.injEq] at h
        obtain ⟨rfl, rfl, rfl⟩ := h
        refine ⟨fun hok => (by cases hok), fun e he => ?_, rfl⟩
        injection he with he
        subst he
        exact ⟨(by decide), fun _ => rfl, fun hc => absurd hc (by decide)⟩
      · rename_i buffer hri
        split at h
        · -- File::create fails
          simp only [Prod.mk.injEq] at h
          obtain ⟨rfl, rfl, rfl⟩ := h
          refine ⟨fun hok => (by cases hok), fun e he => ?_, rfl⟩
          injection he with he
          subst he
          exact ⟨(by decide), fun _ => rfl, fun hc => absurd hc (by decide)⟩
        · split at h
          · -- encode fails after the output file was created
            simp only [Prod.mk.injEq] at h
            obtain ⟨rfl, rfl, rfl⟩ := h
            refine ⟨fun hok => (by cases hok), fun e he => ?_, rfl⟩
            injection he with he
            subst he
            exact ⟨(by decide), fun hne => absurd rfl hne, fun _ => rfl⟩
          · -- success
            simp only [Prod.mk.injEq] at h
            obtain ⟨rfl, rfl, rfl⟩ := h
            refine ⟨fun _ => ⟨width, height, color, buffer, ?_, rfl⟩, ?_, rfl⟩
            · rw [hl]
              exact hd
            · intro e he
              cases he

/-- Case characterization of shrink_image: a success writes the re-encoded
image at the output directory joined with the file name of the input path;
an UnsupportedFormat outcome can only come from the factory dispatch; a
path without file name fails immediately with the invalid-input-path error
and no event; and every recorded event belongs to the shrink phase. -/
theorem shrink_image_spec (fs : FsEnv) (p dir : String) (q : Quality)
    (r : Except AppError Unit) (fs2 : FsEnv) (t : List Event)
    (h : shrink_image fs p dir q = (r, fs2, t)) :
    (r = .ok () → ∃ n w hh c buf, fileName p = some n ∧
       fs2.lookup (pathJoin dir n) = some (jpegEncode q.val w hh c buf)) ∧
    (r = .error (.processor .UnsupportedFormat) →
       DefaultImageProcessorFactory.process_image p = .error .UnsupportedFormat) ∧
    (fileName p = none → r = .error .invalidInputPath ∧ fs2 = fs ∧ t = []) ∧
    t.all Event.isShrinkEvent = true := by
  unfold shrink_image at h
  split at h
  · simp only [Prod.mk.injEq] at h
    obtain ⟨rfl, rfl, rfl⟩ := h
    exact ⟨fun hok => (by cases hok), fun hu => absurd hu (by decide),
           fun _ => ⟨rfl, rfl, rfl⟩, rfl⟩
  · rename_i name hf
    split at h
    · rename_i e hfac
      simp only [Prod.mk.injEq] at h
      obtain ⟨rfl, rfl, rfl⟩ := h
      refine ⟨fun hok => (by cases hok), fun hu => ?_,
              fun hn => (by rw [hf] at hn; cases hn), rfl⟩
      injection hu with hu
      injection hu with hu
      rw [hu] at hfac
      exact hfac
    · rename_i proc hfac
      dsimp only at h
      rcases hst : proc.shrink_to fs (pathJoin dir name) q with ⟨r1, fs1, evs⟩
      rw [hst] at h
      dsimp only at h
      have spec := shrink_to_spec proc fs (pathJoin dir name) q r1 fs1 evs hst
      cases r1 with
      | ok u =>
        cases u
        simp only [Prod.mk.injEq] at h
        obtain ⟨rfl, rfl, rfl⟩ := h
        obtain ⟨w, hh, c, buf, _, hfs⟩ := spec.1 rfl
        refine ⟨fun _ => ⟨name, w, hh, c, buf, hf, ?_⟩,
                fun hu => (by cases hu),
                fun hn => (by rw [hf] at hn; cases hn),
                by simp [List.all_cons, spec.2.2, Event.isShrinkEvent]⟩
        rw [hfs]
        exact FsEnv.lookup_setFile_self _ _ _
      | error e =>
        simp only [Prod.mk.injEq] at h
        obtain ⟨rfl, rfl, rfl⟩ := h
        refine ⟨fun hok => (by cases hok), fun hu => ?_,
                fun hn => (by rw [hf] at hn; cases hn),
                by simp [List.all_cons, spec.2.2, Event.isShrinkEvent]⟩
        injection hu with hu
        injection hu with hu
        exact absurd hu ((spec.2.1 e rfl).1)

theorem process_image_local (env : RunEnv) (path dir : String) (q : Quality)
    (hloc : isRemote path = false) :
    process_image env path dir q =
      ((shrink_image env.fs path dir q).1,
       (shrink_image env.fs path dir q).2.1,
       .lockAcquire :: (shrink_image env.fs path dir q).2.2 ++ [.lockRelease]) := by
  have hrem : ¬isRemote path = true := by rw [hloc]; exact Bool.false_ne_true
  unfold process_image
  rw [if_neg hrem]

theorem process_image_remote_transport (env : RunEnv) (url dir : String) (q : Quality)
    (hrem : isRemote url = true) (hfetch : env.fetch url = .transportError) :
    process_image env url dir q =
      (.error (.transportError url), env.fs, [.fetchAttempt url]) := by
  unfold process_image
  rw [if_pos hrem, hfetch]

theorem process_image_remote_nonsuccess (env : RunEnv) (url dir : String) (q : Quality)
    (status : Nat) (body : FileData)
    (hrem : isRemote url = true) (hfetch : env.fetch url = .response status body)
    (hs : isSuccessStatus status = false) :
    process_image env url dir q =
      (.error (.fetchError url), env.fs, [.fetchAttempt url]) := by
  unfold process_image
  rw [if_pos hrem, hfetch]
  simp [hs]

theorem process_image_remote_temp_fail (env : RunEnv) (url dir : String) (q : Quality)
    (status : Nat) (body : FileData)
    (hrem : isRemote url = true) (hfetch : env.fetch url = .response status body)
    (hs : isSuccessStatus status = true)
    (hc : env.fs.createFails.contains (tempFilePath env url) = true) :
    process_image env url dir q =
      (.error .tempFileError, env.fs, [.fetchAttempt url]) := by
  unfold process_image
  rw [if_pos hrem, hfetch]
  simp only [hs, Bool.not_true, Bool.false_eq_true, if_false]
  rw [hc]
  simp

theorem process_image_remote_staged (env : RunEnv) (url dir : String) (q : Quality)
    (status : Nat) (body : FileData)
    (hrem : isRemote url = true) (hfetch : env.fetch url = .response status body)
    (hs : isSuccessStatus status = true)
    (hc : env.fs.createFails.contains (tempFilePath env url) = false) :
    process_image env url dir q =
      ((shrink_image (env.fs.setFile (tempFilePath env url) body)
          (tempFilePath env url) dir q).1,
       (shrink_image (env.fs.setFile (tempFilePath env url) body)
          (tempFilePath env url) dir q).2.1,
       [.fetchAttempt url, .tempStage (tempFilePath env url), .lockAcquire]
         ++ (shrink_image (env.fs.setFile (tempFilePath env url) body)
              (tempFilePath env url) dir q).2.2 ++ [.lockRelease]) := by
  unfold process_image
  rw [if_pos hrem, hfetch]
  simp only [hs, hc, Bool.not_true, Bool.false_eq_true, if_false]

theorem stagedInputPath_local (env : RunEnv) (src : String)
    (h : isRemote src = false) : stagedInputPath env src = src := by
  simp [stagedInputPath, h]

theorem stagedInputPath_remote (env : RunEnv) (src : String)
    (h : isRemote src = true) : stagedInputPath env src = tempFilePath env src := by
  simp [stagedInputPath, h]

/-! ## The claims -/

/-- C4: the processor factory returns a processor exactly when the file
extension of the path is the lowercase string jpg or the lowercase string
jpeg (a case-sensitive match); any other extension, and a path without an
extension, yields the UnsupportedFormat error. -/
theorem c4_dispatch_characterization : ∀ p : String,
    DefaultImageProcessorFactory.process_image p =
      (if extension p = some "jpg" ∨ extension p = some "jpeg"
       then .ok ⟨p⟩ else .error .UnsupportedFormat) := by
  intro p
  unfold DefaultImageProcessorFactory.process_image
  cases h : extension p with
  | none => simp
  | some ext => simp

/-- C5: Quality construction from a raw u8 value succeeds and returns the
value unchanged for every value up to 100, and fails with QualityOutOfRange
for every larger u8 value; nothing is ever clamped. -/
theorem c5_quality_construction : ∀ v : Nat, v < 256 →
    (v ≤ 100 → Quality.tryFrom v = .ok ⟨v⟩) ∧
    (100 < v → Quality.tryFrom v = .error .QualityOutOfRange) := by
  intro v _
  unfold Quality.tryFrom
  constructor
  · intro hle
    rw [if_neg (by omega)]
  · intro hgt
    rw [if_pos hgt]

/-- Witness for C5 at the boundary values 100 and 101. -/
theorem c5_quality_construction_witness :
    Quality.tryFrom 100 = .ok ⟨100⟩ ∧
    Quality.tryFrom 101 = .error .QualityOutOfRange :=
  ⟨(c5_quality_construction 100 (by decide)).1 (by decide),
   (c5_quality_construction 101 (by decide)).2 (by decide)⟩

/-- C3: the batch produces exactly one outcome per submitted item, and the
outcome at every position is a function of that item alone — so an error in
one item (unsupported format, fetch, decode or file error, all captured
inside the per-item task) cannot abort or change the outcome of any other
item; the result covers every item, mirroring the join over all spawned
tasks. -/
theorem c3_batch_isolation : ∀ (env : RunEnv) (inputs : List String)
    (dir : String) (q : Quality),
    (process_files env inputs dir q).length = inputs.length ∧
    ∀ i : Nat, (process_files env inputs dir q)[i]? =
      (inputs[i]?).map (itemOutcome env dir q) := by
  intro env inputs dir q
  refine ⟨by simp [process_files], fun i => ?_⟩
  simp [process_files]

/-- C10: a local input path without a final file-name component (such as
the root path, or a path ending in a parent-directory component) fails with
the invalid-input-path error before the factory is consulted and before any
output file is created: the file system is unchanged and the trace holds
only the lock events. -/
theorem c10_no_file_name : ∀ (env : RunEnv) (path dir : String) (q : Quality),
    isRemote path = false → fileName path = none →
    (process_image env path dir q).1 = .error .invalidInputPath ∧
    (process_image env path dir q).2.1 = env.fs ∧
    (process_image env path dir q).2.2 = [.lockAcquire, .lockRelease] := by
  intro env path dir q hloc hf
  rw [process_image_local env path dir q hloc]
  rcases hsi : shrink_image env.fs path dir q with ⟨r1, fs1, evs⟩
  obtain ⟨h1, h2, h3⟩ := (shrink_image_spec env.fs path dir q r1 fs1 evs hsi).2.2.1 hf
  subst h1
  subst h2
  subst h3
  exact ⟨rfl, rfl, rfl⟩

/-- Witness for C10 at the root path. -/
theorem c10_no_file_name_witness :
    (process_image envC10 "/" "/out" ⟨50⟩).1 = .error .invalidInputPath ∧
    (process_image envC10 "/" "/out" ⟨50⟩).2.1 = envC10.fs ∧
    (process_image envC10 "/" "/out" ⟨50⟩).2.2 = [.lockAcquire, .lockRelease] :=
  c10_no_file_name envC10 "/" "/out" ⟨50⟩ (by decide) (by decide)

/-- C2 as stated is false: with a valid JPEG input and an encoder write
failure at the output path, shrink_to returns an error yet leaves a
created, truncated (empty, invalid) file at the output path — neither a
complete valid output file nor no file at all. -/
theorem c2_counterexample :
    (JpegProcessor.shrink_to ⟨"in.jpg"⟩ fsC2 "out.jpg" ⟨50⟩).1
      = .error (.DecodingError "Failed to encode JPEG image") ∧
    (JpegProcessor.shrink_to ⟨"in.jpg"⟩ fsC2 "out.jpg" ⟨50⟩).2.1.lookup "out.jpg"
      = some (.invalid []) ∧
    isValidJpeg (.invalid []) = false := by
  decide

/-- C2 amended: when shrink_to fails anywhere before the encode step (input
open, header decode, full read, output creation), the file system is left
completely unchanged — in particular nothing is created or modified at the
output path when decoding of the input fails; only when the encode step
fails after the output file was already created does a truncated output
file remain at the output path. -/
theorem c2_amended_no_partial_output : ∀ (self : JpegProcessor) (fs : FsEnv)
    (out : String) (q : Quality) (e : ImageProcessorError),
    (self.shrink_to fs out q).1 = .error e →
    (e ≠ .DecodingError "Failed to encode JPEG image" →
      (self.shrink_to fs out q).2.1 = fs) ∧
    (e = .DecodingError "Failed to encode JPEG image" →
      (self.shrink_to fs out q).2.1 = fs.setFile out (.invalid [])) := by
  intro self fs out q e herr
  rcases hst : self.shrink_to fs out q with ⟨r1, fs1, evs⟩
  rw [hst] at herr
  have spec := (shrink_to_spec self fs out q r1 fs1 evs hst).2.1 e herr
  exact ⟨spec.2.1, spec.2.2⟩

/-- Witness for the amended C2: a non-JPEG input fails at header decoding
and the file system comes back unchanged. -/
theorem c2_amended_no_partial_output_witness :
    ((ImageProcessorError.DecodingError "Failed to start decoding JPEG"
        ≠ .DecodingError "Failed to encode JPEG image" →
      (JpegProcessor.shrink_to ⟨"bad.jpg"⟩ fsC2w "out.jpg" ⟨50⟩).2.1 = fsC2w) ∧
     (ImageProcessorError.DecodingError "Failed to start decoding JPEG"
        = .DecodingError "Failed to encode JPEG image" →
      (JpegProcessor.shrink_to ⟨"bad.jpg"⟩ fsC2w "out.jpg" ⟨50⟩).2.1 =
        fsC2w.setFile "out.jpg" (.invalid []))) :=
  c2_amended_no_partial_output ⟨"bad.jpg"⟩ fsC2w "out.jpg" ⟨50⟩
    (.DecodingError "Failed to start decoding JPEG") (by decide)

/-- C7: a successful shrink_to writes at the output path a complete valid
JPEG whose width, height and color layout are exactly those recovered from
the decoder of the input. -/
theorem c7_roundtrip_preserves_geometry : ∀ (self : JpegProcessor) (fs : FsEnv)
    (out : String) (q : Quality),
    (self.shrink_to fs out q).1 = .ok () →
    ∃ w hh c dOut,
      (fs.lookup self.input_path).bind decodeHeader = some (w, hh, c) ∧
      (self.shrink_to fs out q).2.1.lookup out = some dOut ∧
      isValidJpeg dOut = true ∧
      decodeHeader dOut = some (w, hh, c) := by
  intro self fs out q hok
  rcases hst : self.shrink_to fs out q with ⟨r1, fs1, evs⟩
  rw [hst] at hok
  obtain ⟨w, hh, c, buf, hdec, hfs⟩ := (shrink_to_spec self fs out q r1 fs1 evs hst).1 hok
  refine ⟨w, hh, c, jpegEncode q.val w hh c buf, hdec, ?_, rfl, rfl⟩
  show fs1.lookup out = _
  rw [hfs]
  exact FsEnv.lookup_setFile_self _ _ _

/-- Witness for C7 on a concrete grayscale JPEG. -/
theorem c7_roundtrip_preserves_geometry_witness :
    ∃ w hh c dOut,
      (fsC7.lookup (JpegProcessor.mk "photo.jpg").input_path).bind decodeHeader
        = some (w, hh, c) ∧
      (JpegProcessor.shrink_to ⟨"photo.jpg"⟩ fsC7 "/out/photo.jpg" ⟨30⟩).2.1.lookup
        "/out/photo.jpg" = some dOut ∧
      isValidJpeg dOut = true ∧
      decodeHeader dOut = some (w, hh, c) :=
  c7_roundtrip_preserves_geometry ⟨"photo.jpg"⟩ fsC7 "/out/photo.jpg" ⟨30⟩ (by decide)

/-- C6: for a remote source whose GET fails in transport or returns a
status outside the 2xx range, the item fails with a fetch failure, the file
system is untouched, and the trace is exactly the single fetch attempt: no
factory dispatch and no processor invocation takes place. -/
theorem c6_fetch_failure_short_circuits : ∀ (env : RunEnv) (url dir : String)
    (q : Quality),
    isRemote url = true → fetchFails env url = true →
    ∃ e, (process_image env url dir q).1 = .error e ∧
      e.isFetchFailure = true ∧
      (process_image env url dir q).2.1 = env.fs ∧
      (process_image env url dir q).2.2 = [.fetchAttempt url] := by
  intro env url dir q hrem hff
  unfold fetchFails at hff
  cases hfetch : env.fetch url with
  | transportError =>
    rw [process_image_remote_transport env url dir q hrem hfetch]
    exact ⟨.transportError url, rfl, rfl, rfl, rfl⟩
  | response status body =>
    rw [hfetch] at hff
    simp only [Bool.not_eq_true'] at hff
    rw [process_image_remote_nonsuccess env url dir q status body hrem hfetch hff]
    exact ⟨.fetchError url, rfl, rfl, rfl, rfl⟩

/-- Witness for C6: a GET answered with status 404. -/
theorem c6_fetch_failure_short_circuits_witness :
    ∃ e, (process_image envC6 "http://h/a.jpg" "/out" ⟨50⟩).1 = .error e ∧
      e.isFetchFailure = true ∧
      (process_image envC6 "http://h/a.jpg" "/out" ⟨50⟩).2.1 = envC6.fs ∧
      (process_image envC6 "http://h/a.jpg" "/out" ⟨50⟩).2.2 =
        [.fetchAttempt "http://h/a.jpg"] :=
  c6_fetch_failure_short_circuits envC6 "http://h/a.jpg" "/out" ⟨50⟩
    (by decide) (by decide)

/-- C1 as stated is false for remote sources: here the remote item
succeeds, the file name of the original source string is photo.jpg, yet
nothing is written at the output directory joined with photo.jpg — the
output appears under the file name of the generated temporary staging
file instead. -/
theorem c1_counterexample :
    (process_image envC1 "http://host/photo.jpg" "/out" ⟨50⟩).1 = .ok () ∧
    fileName "http://host/photo.jpg" = some "photo.jpg" ∧
    (process_image envC1 "http://host/photo.jpg" "/out" ⟨50⟩).2.1.lookup
      (pathJoin "/out" "photo.jpg") = none ∧
    (process_image envC1 "http://host/photo.jpg" "/out" ⟨50⟩).2.1.lookup
      "/out/img_compactor_AbC123.jpg" = some (jpegEncode 50 2 2 .rgb8 [1, 2, 3]) := by
  decide

/-- C1 amended: on success the output file path is output_dir joined with
the final path component of the staged input path — the original source
string for a local source, but the generated temporary file name
img_compactor_<rand>.jpg (not the name from the URL) for a remote source. -/
theorem c1_amended_output_naming : ∀ (env : RunEnv) (src dir : String) (q : Quality),
    '/' ∉ (env.tempRand src).data →
    (process_image env src dir q).1 = .ok () →
    ∃ n w hh c buf,
      fileName (stagedInputPath env src) = some n ∧
      (isRemote src = true → n = tempFileName env src) ∧
      (process_image env src dir q).2.1.lookup (pathJoin dir n) =
        some (jpegEncode q.val w hh c buf) := by
  intro env src dir q hrand hok
  cases hrem : isRemote src with
  | false =>
    rw [process_image_local env src dir q hrem] at hok ⊢
    rcases hsi : shrink_image env.fs src dir q with ⟨r1, fs1, evs⟩
    rw [hsi] at hok
    obtain ⟨n, w, hh, c, buf, hn, hlook⟩ :=
      (shrink_image_spec env.fs src dir q r1 fs1 evs hsi).1 hok
    refine ⟨n, w, hh, c, buf, ?_, fun hr => absurd hr (by decide), hlook⟩
    rw [stagedInputPath_local env src hrem]
    exact hn
  | true =>
    cases hfetch : env.fetch src with
    | transportError =>
      rw [process_image_remote_transport env src dir q hrem hfetch] at hok
      simp at hok
    | response status body =>
      cases hs : isSuccessStatus status with
      | false =>
        rw [process_image_remote_nonsuccess env src dir q status body hrem hfetch hs] at hok
        simp at hok
      | true =>
        cases hc : env.fs.createFails.contains (tempFilePath env src) with
        | true =>
          rw [process_image_remote_temp_fail env src dir q status body hrem hfetch hs hc] at hok
          simp at hok
        | false =>
          rw [process_image_remote_staged env src dir q status body hrem hfetch hs hc] at hok ⊢
          rcases hsi : shrink_image (env.fs.setFile (tempFilePath env src) body)
              (tempFilePath env src) dir q with ⟨r1, fs1, evs⟩
          rw [hsi] at hok
          obtain ⟨n, w, hh, c, buf, hn, hlook⟩ :=
            (shrink_image_spec _ _ _ _ r1 fs1 evs hsi).1 hok
          have hfn := fileName_tempFilePath env src hrand
          have hn2 : n = tempFileName env src := by
            have := hfn.symm.trans hn
            injection this with hx
            exact hx.symm
          refine ⟨n, w, hh, c, buf, ?_, fun _ => hn2, hlook⟩
          rw [stagedInputPath_remote env src hrem]
          exact hn

/-- Witness for the amended C1 on a concrete remote source. -/
theorem c1_amended_output_naming_witness :
    ∃ n w hh c buf,
      fileName (stagedInputPath envC1 "http://host/photo.jpg") = some n ∧
      (isRemote "http://host/photo.jpg" = true →
        n = tempFileName envC1 "http://host/photo.jpg") ∧
      (process_image envC1 "http://host/photo.jpg" "/out" ⟨50⟩).2.1.lookup
        (pathJoin "/out" n) = some (jpegEncode 50 w hh c buf) :=
  c1_amended_output_naming envC1 "http://host/photo.jpg" "/out" ⟨50⟩
    (by decide) (by decide)

/-- C8 as stated is false: in this run of a local item the locked section
of the trace contains the file open and the encode of the item, which are
not factory dispatch events — the lock is held across the whole blocking
shrink, not only for the dispatch. -/
theorem c8_counterexample :
    lockHeldOnlyForDispatch ((process_image envC8 "in.jpg" "/out" ⟨50⟩).2.2) = false ∧
    Event.fileOpen "in.jpg" ∈
      lockedSection ((process_image envC8 "in.jpg" "/out" ⟨50⟩).2.2) ∧
    Event.encodeImage "/out/in.jpg" ∈
      lockedSection ((process_image envC8 "in.jpg" "/out" ⟨50⟩).2.2) := by
  decide

/-- C8 amended: the lock is acquired only after the fetch and the staging
of a remote item are complete — it is never held across the remote fetch;
but between its acquisition and release lies the whole shrink phase of the
item: the factory dispatch together with the file open, decode, output
creation and encode. -/
theorem c8_amended_lock_scope : ∀ (env : RunEnv) (src dir : String) (q : Quality),
    ((process_image env src dir q).2.2.all Event.isAcquisitionEvent = true) ∨
    ∃ pre mid,
      (process_image env src dir q).2.2 =
        pre ++ Event.lockAcquire :: (mid ++ [Event.lockRelease]) ∧
      pre.all Event.isAcquisitionEvent = true ∧
      mid.all Event.isShrinkEvent = true := by
  intro env src dir q
  cases hrem : isRemote src with
  | false =>
    rw [process_image_local env src dir q hrem]
    refine Or.inr ⟨[], (shrink_image env.fs src dir q).2.2, rfl, rfl, ?_⟩
    rcases hsi : shrink_image env.fs src dir q with ⟨r1, fs1, evs⟩
    exact (shrink_image_spec env.fs src dir q r1 fs1 evs hsi).2.2.2
  | true =>
    cases hfetch : env.fetch src with
    | transportError =>
      rw [process_image_remote_transport env src dir q hrem hfetch]
      exact Or.inl rfl
    | response status body =>
      cases hs : isSuccessStatus status with
      | false =>
        rw [process_image_remote_nonsuccess env src dir q status body hrem hfetch hs]
        exact Or.inl rfl
      | true =>
        cases hc : env.fs.createFails.contains (tempFilePath env src) with
        | true =>
          rw [process_image_remote_temp_fail env src dir q status body hrem hfetch hs hc]
          exact Or.inl rfl
        | false =>
          rw [process_image_remote_staged env src dir q status body hrem hfetch hs hc]
          refine Or.inr ⟨[.fetchAttempt src, .tempStage (tempFilePath env src)],
            (shrink_image (env.fs.setFile (tempFilePath env src) body)
              (tempFilePath env src) dir q).2.2, ?_, rfl, ?_⟩
          · simp
          · rcases hsi : shrink_image (env.fs.setFile (tempFilePath env src) body)
                (tempFilePath env src) dir q with ⟨r1, fs1, evs⟩
            exact (shrink_image_spec _ _ _ _ r1 fs1 evs hsi).2.2.2

/-- C9: for every remote source the staged temporary path ends with the
suffix .jpg, the factory dispatch on the staged path therefore always
selects the JPEG processor, and consequently a remote item can never fail
with UnsupportedFormat, whatever bytes the fetch returned. -/
theorem c9_temp_suffix_dispatch : ∀ (env : RunEnv) (url dir : String) (q : Quality),
    isRemote url = true → '/' ∉ (env.tempRand url).data →
    (∃ l, (tempFilePath env url).data = l ++ ".jpg".data) ∧
    DefaultImageProcessorFactory.process_image (tempFilePath env url) =
      .ok ⟨tempFilePath env url⟩ ∧
    (process_image env url dir q).1 ≠ .error (.processor .UnsupportedFormat) := by
  intro env url dir q hrem hrand
  refine ⟨?_, factory_tempFilePath env url hrand, ?_⟩
  · obtain ⟨l, hl⟩ := joinData_suffix env.tempDir.data (tempFileName env url).data
    refine ⟨l ++ ("img_compactor_".data ++ (env.tempRand url).data), ?_⟩
    show joinData env.tempDir.data (tempFileName env url).data = _
    rw [hl, tempFileName_data]
    simp [List.append_assoc]
  · cases hfetch : env.fetch url with
    | transportError =>
      rw [process_image_remote_transport env url dir q hrem hfetch]
      intro h
      simp at h
    | response status body =>
      cases hs : isSuccessStatus status with
      | false =>
        rw [process_image_remote_nonsuccess env url dir q status body hrem hfetch hs]
        intro h
        simp at h
      | true =>
        cases hc : env.fs.createFails.contains (tempFilePath env url) with
        | true =>
          rw [process_image_remote_temp_fail env url dir q status body hrem hfetch hs hc]
          intro h
          simp at h
        | false =>
          rw [process_image_remote_staged env url dir q status body hrem hfetch hs hc]
          rcases hsi : shrink_image (env.fs.setFile (tempFilePath env url) body)
              (tempFilePath env url) dir q with ⟨r1, fs1, evs⟩
          intro h
          have hun := (shrink_image_spec _ _ _ _ r1 fs1 evs hsi).2.1 h
          rw [factory_tempFilePath env url hrand] at hun
          cases hun

/-- Witness for C9: a remote source whose URL does not even name a JPEG and
whose body is not a JPEG still never yields UnsupportedFormat. -/
theorem c9_temp_suffix_dispatch_witness :
    (∃ l, (tempFilePath envC9 "http://h/x.png").data = l ++ ".jpg".data) ∧
    DefaultImageProcessorFactory.process_image (tempFilePath envC9 "http://h/x.png") =
      .ok ⟨tempFilePath envC9 "http://h/x.png"⟩ ∧
    (process_image envC9 "http://h/x.png" "/out" ⟨50⟩).1 ≠
      .error (.processor .UnsupportedFormat) :=
  c9_temp_suffix_dispatch envC9 "http://h/x.png" "/out" ⟨50⟩ (by decide) (by decide)

end ImgCompactor
